import Mathlib

/-!
Verification development for the bfcpp futures-market gateway
(`src/bfcpp/bfcpplib/Futures.hpp`).

The definitions below are a shallow embedding of `UsdFuturesMarket`:
member state (`m_apiAccess`, the static `ReceiveWindowMap`) and external
inputs (the HMAC routine `createSignature`, `getTimestamp`, HTTP responses)
are passed explicitly.  Functions declared in `bfcppCommon.hpp`,
`IntervalTimer.hpp` or `Futures.cpp` are not part of the sources at hand;
where one of them decides a property it is modelled from the specification
and marked `Modelled from the spec:` in its doc comment.
-/

set_option autoImplicit false

open scoped List

namespace Bfcpp

/-- The REST call kinds, as enumerated by the keys of the static
`ReceiveWindowMap` initialiser (Futures.hpp lines 31-42). -/
inductive RestCall where
  | NewOrder
  | ListenKey
  | CancelOrder
  | AllOrders
  | AccountInfo
  | AccountBalance
  | TakerBuySellVolume
  | KlineCandles
  | Ping
deriving DecidableEq, Repr

/-- The market variants: `MarketType::Futures` (live) and
`MarketType::FuturesTest` (the test-net subclass `UsdFuturesTestMarket`). -/
inductive MarketType where
  | Futures
  | FuturesTest
deriving DecidableEq, Repr

/-- HTTP methods used by the gateway. -/
inductive HttpMethod where
  | GET
  | POST
  | PUT
  | DELETE
deriving DecidableEq, Repr

/-- Credentials, `ApiAccess` of the spec data model: an API key plus the
secret key required for signing.  Unset credentials are the default-constructed
pair of empty strings (`ApiAccess access = \x7b\x7d` in the C++ constructors). -/
structure ApiAccess where
  apiKey : String
  secretKey : String
deriving DecidableEq, Repr

/-- A market-access object.  Mirrors the per-instance state of
`UsdFuturesMarket` relevant to the claims: note that the receive-window
table is NOT a field, because in the source it is the `inline static`
member `ReceiveWindowMap` (Futures.hpp line 31), shared by every instance
of the class and of its test-net subclass. -/
structure MarketInstance where
  marketType : MarketType
  apiAccess : ApiAccess
deriving DecidableEq, Repr

/-- An HTTP request as assembled by `createHttpRequest`.  The path half of
the URI is produced by `getApiPath(marketType, call)` (declared in
`bfcppCommon.hpp`); the embedding records the pair of arguments the path is
computed from.  `query = some q` when the caller appended `"?" ++ q` to the
path, `none` when no query was appended at all. -/
structure HttpRequest where
  method : HttpMethod
  marketType : MarketType
  pathCall : RestCall
  query : Option String
deriving DecidableEq, Repr

/-- Split a character list at every occurrence of the separator `c`.
Kernel-friendly replacement for `String.splitOn` restricted to
single-character separators. -/
def splitOnChar (c : Char) : List Char → List (List Char)
  | [] => [[]]
  | x :: xs =>
    let r := splitOnChar c xs
    if x = c then [] :: r
    else
      match r with
      | [] => [[x]]
      | g :: gs => (x :: g) :: gs

/-- The parameter keys of a query string: the text before the first `=` of
each `&`-separated component. -/
def queryParamKeys (q : String) : List String :=
  (splitOnChar (Char.ofNat 38) q.data).map (fun kv => ((splitOnChar (Char.ofNat 61) kv).headD []).asString)

/-- The parameter keys carried by a request: empty when no query string was
appended to the path. -/
def HttpRequest.queryKeys (r : HttpRequest) : List String :=
  match r.query with
  | none => []
  | some q => queryParamKeys q

/-- The source misspelling is kept: `DefaultReceiveWindwow` (Futures.hpp
line 28), the default receive window of every call kind. -/
def DefaultReceiveWindwow : String := "5000"

/-- The initial value of the static `ReceiveWindowMap` (Futures.hpp lines
31-42): every one of the nine `RestCall` members is present, each bound to
the default window, so `ReceiveWindowMap.at(call)` never fails.  The map is
total, hence embedded as a function. -/
def initialReceiveWindowMap : RestCall → String :=
  fun _ => DefaultReceiveWindwow

/-- Embedding of `UsdFuturesMarket::setReceiveWindow` (Futures.hpp lines
263-266): `ReceiveWindowMap[call] = std::to_string(ms.count())`.  Because
the table is a static member, the update is modelled as a transformation of
the shared table, not of any instance. -/
def setReceiveWindow (rw : RestCall → String) (call : RestCall) (ms : Nat) : RestCall → String :=
  fun c => if c = call then Nat.repr ms else rw c

/-- Embedding of `UsdFuturesMarket::createQueryString` (Futures.hpp lines
373-394).  Explicit inputs: `sig` models `createSignature` (declared in
`bfcppCommon.hpp`, applied to the secret key and the message), `secretKey`
is `m_apiAccess.secretKey`, `rw` is the static `ReceiveWindowMap`, `ts` is
the value returned by `getTimestamp()` in epoch milliseconds, and
`queryValues` is the `std::map<string, string>` argument in its iteration
order.  The fold mirrors the `std::for_each` writing `key=value&` per entry
into the stringstream; the comment at line 377 notes the trailing `&` is
left in place deliberately. -/
def createQueryString (sig : String → String → String) (secretKey : String)
    (rw : RestCall → String) (ts : Nat)
    (queryValues : List (String × String)) (call : RestCall) (sign : Bool) : String :=
  let ss := queryValues.foldl (fun acc kv => acc ++ kv.1 ++ "=" ++ kv.2 ++ "&") ""
  if sign then
    let qs := ss ++ "recvWindow=" ++ rw call ++ "&timestamp=" ++ Nat.repr ts
    qs ++ "&signature=" ++ sig secretKey qs
  else
    ss

/-- Concatenation of a list of strings. -/
def joinAll : List String → String
  | [] => ""
  | s :: t => s ++ joinAll t

/-- The canonical pre-signature string of spec section 4.3: the concatenated
pairs followed by `recvWindow` and `timestamp`.  Stated independently of
`createQueryString` (structural recursion over a map instead of a string
fold) so that agreement between the two is a theorem, not a definition. -/
def canonicalQuery (rw : RestCall → String) (ts : Nat)
    (m : List (String × String)) (call : RestCall) : String :=
  joinAll (m.map (fun kv => kv.1 ++ "=" ++ kv.2 ++ "&"))
    ++ "recvWindow=" ++ rw call ++ "&timestamp=" ++ Nat.repr ts

/-- Embedding of the request construction in
`UsdFuturesMarket::sendRestRequest` (Futures.hpp lines 414-423).  The
`sign` parameter mirrors the C++ parameter of the same name; note that the
call at line 419 reads `createQueryString(std::move(query), call, true)`,
passing the literal `true` whatever `sign` holds. -/
def sendRestRequest (sig : String → String → String) (secretKey : String)
    (rw : RestCall → String) (ts : Nat) (call : RestCall) (method : HttpMethod)
    (sign : Bool) (mt : MarketType) (query : List (String × String)) : HttpRequest :=
  { method := method
    marketType := mt
    pathCall := call
    query := some (createQueryString sig secretKey rw ts query call true) }

/-- Embedding of the request construction in `UsdFuturesMarket::ping`
(Futures.hpp line 78): a POST whose path comes from
`getApiPath(m_marketType, RestCall::NewOrder)` and whose appended query is
`createQueryString(\x7b\x7d, RestCall::Ping, false)`. -/
def pingRequest (sig : String → String → String) (secretKey : String)
    (rw : RestCall → String) (ts : Nat) (mt : MarketType) : HttpRequest :=
  { method := HttpMethod.POST
    marketType := mt
    pathCall := RestCall.NewOrder
    query := some (createQueryString sig secretKey rw ts [] RestCall.Ping false) }

/-- Embedding of the latency computation of `ping` (Futures.hpp lines
80-83): `Clock::now()` is sampled before the dispatch (`send`) and inside
the continuation on response receipt (`rcv`), and the result is
`duration_cast<milliseconds>(rcv - send)`.  Clock samples are modelled as
explicit epoch-millisecond values. -/
def pingLatency (send rcv : Nat) : Nat := rcv - send

/-- Embedding of the request construction in
`UsdFuturesMarket::onUserDataTimer` (Futures.hpp line 280): a PUT built
from `getApiPath(m_marketType, RestCall::ListenKey)` with no query string
appended at all. -/
def onUserDataTimerRequest (mt : MarketType) : HttpRequest :=
  { method := HttpMethod.PUT
    marketType := mt
    pathCall := RestCall.ListenKey
    query := none }

/-- Lexicographic comparison of character lists by code point, the strict
weak order `std::less<std::string>` uses to arrange map keys. -/
def charsLt : List Char → List Char → Bool
  | [], [] => false
  | [], _ :: _ => true
  | _ :: _, [] => false
  | a :: as, b :: bs =>
    if a.toNat < b.toNat then true
    else if b.toNat < a.toNat then false
    else charsLt as bs

/-- Lexicographic string comparison: the key order of
`std::map<string, string>`. -/
def strLt (a b : String) : Bool := charsLt a.data b.data

/-- Ordered insertion into a key-sorted association list: the behaviour of
`std::map<string, string>` insertion.  Like `std::map::insert`, an entry
whose key is already present is left unchanged. -/
def mapInsert (k v : String) : List (String × String) → List (String × String)
  | [] => [(k, v)]
  | (k1, v1) :: t =>
    if strLt k k1 then (k, v) :: (k1, v1) :: t
    else if k == k1 then (k1, v1) :: t
    else (k1, v1) :: mapInsert k v t

/-- The `std::map<string, string>` obtained by inserting a sequence of
pairs in order: the iteration order of the resulting map is sorted by key,
regardless of the order the pairs were fed in. -/
def stdMapOfList (l : List (String × String)) : List (String × String) :=
  l.foldl (fun m kv => mapInsert kv.1 kv.2 m) []

/-- Strict key order on entries, the iteration order of a well-formed
`std::map`. -/
def keyLt (a b : String × String) : Prop := strLt a.1 b.1 = true

/-- A minimal JSON value, modelling the `web::json::value` extracted from
an HTTP response body. -/
inductive Jn where
  | null
  | jbool (b : Bool)
  | jnum (neg : Bool) (n : Nat)
  | jstr (s : String)
  | jobj (fields : List (String × Jn))
  | jarr (elems : List Jn)

mutual

/-- Serialisation of a JSON value, modelling
`response.extract_json().get().serialize()` in `sendRestRequest`
(Futures.hpp line 433). -/
def Jn.serialize : Jn → String
  | .null => "null"
  | .jbool b => cond b "true" "false"
  | .jnum neg n => (cond neg "-" "") ++ Nat.repr n
  | .jstr s => "\"" ++ s ++ "\""
  | .jobj fs => "\x7b" ++ serializeFields fs ++ "\x7d"
  | .jarr es => "[" ++ serializeElems es ++ "]"

/-- Comma-separated serialisation of the fields of a JSON object. -/
def serializeFields : List (String × Jn) → String
  | [] => ""
  | [f] => "\"" ++ f.1 ++ "\":" ++ Jn.serialize f.2
  | f :: g :: rest => "\"" ++ f.1 ++ "\":" ++ Jn.serialize f.2 ++ "," ++ serializeFields (g :: rest)

/-- Comma-separated serialisation of the elements of a JSON array. -/
def serializeElems : List Jn → String
  | [] => ""
  | [e] => Jn.serialize e
  | e :: f :: rest => Jn.serialize e ++ "," ++ serializeElems (f :: rest)

end

/-- An HTTP response at the granularity the gateway inspects it: a status
code and the JSON body. -/
structure HttpResponse where
  statusCode : Nat
  body : Jn

/-- `web::http::status_codes::OK`. -/
def statusOK : Nat := 200

/-- A typed REST result at the granularity of the claims: the validity
flag and the message slot that carries the raw error body when invalid.
Models the common part of `AccountInformation`, `NewOrderResult`, etc. -/
structure RestResult where
  valid : Bool
  msg : String
deriving DecidableEq, Repr

/-- Modelled from the spec: `createInvalidRestResult` is declared in
`bfcppCommon.hpp`, which is not among the sources at hand.  Spec section
4.4: on a non-success status the call returns a Result marked invalid and
carrying the raw error body. -/
def createInvalidRestResult (body : String) : RestResult :=
  { valid := false, msg := body }

/-- Embedding of the response continuation of
`UsdFuturesMarket::sendRestRequest` (Futures.hpp lines 425-435): an OK
status is handed to the per-call extraction function `handler`; any other
status produces `createInvalidRestResult` of the serialised response body.
The continuation is total: the non-OK branch returns a value rather than
raising. -/
def sendRestResponse (handler : HttpResponse → RestResult) (resp : HttpResponse) : RestResult :=
  if resp.statusCode = statusOK then handler resp
  else createInvalidRestResult resp.body.serialize

/-- The message of the exception thrown by `onUserDataTimer`
(Futures.hpp line 287) when listen-key renewal receives a non-OK status. -/
def keepAliveErrorMsg : String := "ERROR : keepalive for listen key failed"

/-- Embedding of the response check inside
`UsdFuturesMarket::onUserDataTimer` (Futures.hpp lines 283-289): a non-OK
status on the renewal PUT throws `BfcppException`, re-raised out of the
continuation by `.wait()`. -/
def onUserDataTimerCheck (status : Nat) : Except String Unit :=
  if status = statusOK then Except.ok ()
  else Except.error keepAliveErrorMsg

/-- Modelled from the spec: the `IntervalTimer` driving `onUserDataTimer`
lives in `IntervalTimer.hpp`, which is not among the sources at hand.
Spec section 4.5: the timer runs the renewal once per interval until
stopped, and a renewal failure raises a fatal `KeepAliveError` instead of
being retried silently.  The run is fuel-indexed (`fuel` remaining ticks,
`i` the index of the next tick); it returns the number of renewal
invocations performed and the list of errors raised, stopping at the first
error.  `statuses i` is the HTTP status the renewal at tick `i` receives. -/
def runKeepAliveFrom (statuses : Nat → Nat) (i : Nat) : Nat → Nat × List String
  | 0 => (0, [])
  | fuel + 1 =>
    match onUserDataTimerCheck (statuses i) with
    | Except.ok _ =>
      let r := runKeepAliveFrom statuses (i + 1) fuel
      (r.1 + 1, r.2)
    | Except.error e => (1, [e])

/-- A keepalive-timer run started at tick 0. -/
def runKeepAlive (statuses : Nat → Nat) (fuel : Nat) : Nat × List String :=
  runKeepAliveFrom statuses 0 fuel

/-- A monitor token: equality by id (spec section 3,
`SubscriptionHandle`). -/
structure MonitorToken where
  id : Nat
deriving DecidableEq, Repr

/-- The registry `m_idToSession` (Futures.hpp line 453): monitor-token ids
mapped to sessions, the sessions themselves identified by an id. -/
abbrev Registry := List (Nat × Nat)

/-- `m_idToSession.find(mt.id)` (Futures.hpp line 228). -/
def registryFind (reg : Registry) (i : Nat) : Option (Nat × Nat) :=
  reg.find? (fun e => e.1 == i)

/-- Modelled from the spec: `disconnect(mt, true)` is implemented in
`Futures.cpp`, which is not among the sources at hand.  Spec section 4.1:
unsubscribe cancels the session, waits for its receive loop to exit, then
removes the registry entry. -/
def disconnectEntry (reg : Registry) (mt : MonitorToken) : Registry :=
  reg.filter (fun e => !(e.1 == mt.id))

/-- Embedding of `UsdFuturesMarket::cancelMonitor` (Futures.hpp lines
226-232): the registry is consulted, and only when the token is found is
`disconnect(mt, true)` invoked; an unknown token takes the empty else
branch.  The function is total — there is no failure path. -/
def cancelMonitor (reg : Registry) (mt : MonitorToken) : Registry :=
  match registryFind reg mt.id with
  | some _ => disconnectEntry reg mt
  | none => reg

/-! ## Helper lemmas -/

theorem foldl_query_eq_joinAll (m : List (String × String)) (acc : String) :
    m.foldl (fun acc kv => acc ++ kv.1 ++ "=" ++ kv.2 ++ "&") acc
      = acc ++ joinAll (m.map (fun kv => kv.1 ++ "=" ++ kv.2 ++ "&")) := by
  induction m generalizing acc with
  | nil => simp [joinAll]
  | cons kv t ih =>
    simp only [List.foldl_cons, List.map_cons, joinAll, ih]
    simp [String.append_assoc]

theorem createQueryString_false_eq (sig : String → String → String) (secretKey : String)
    (rw : RestCall → String) (ts : Nat) (m : List (String × String)) (call : RestCall) :
    createQueryString sig secretKey rw ts m call false
      = joinAll (m.map (fun kv => kv.1 ++ "=" ++ kv.2 ++ "&")) := by
  unfold createQueryString
  simpa using foldl_query_eq_joinAll m ""

theorem createQueryString_true_eq (sig : String → String → String) (secretKey : String)
    (rw : RestCall → String) (ts : Nat) (m : List (String × String)) (call : RestCall) :
    createQueryString sig secretKey rw ts m call true
      = canonicalQuery rw ts m call ++ "&signature="
          ++ sig secretKey (canonicalQuery rw ts m call) := by
  unfold createQueryString canonicalQuery
  have h := foldl_query_eq_joinAll m ""
  simp only [String.append_empty, if_pos] at h ⊢
  rw [h]
  simp

theorem toDigitsCore_acc_ne_nil (b : Nat) :
    ∀ (fuel n : Nat) (ds : List Char), ds ≠ [] → Nat.toDigitsCore b fuel n ds ≠ []
  | 0, _, _, h => h
  | fuel + 1, n, ds, _ => by
    unfold Nat.toDigitsCore
    by_cases hz : n / b = 0
    · simp [hz]
    · simp only [hz, if_false]
      exact toDigitsCore_acc_ne_nil b fuel _ _ (List.cons_ne_nil _ _)

theorem toDigits_ne_nil (b n : Nat) : Nat.toDigits b n ≠ [] := by
  unfold Nat.toDigits Nat.toDigitsCore
  by_cases hz : n / b = 0
  · simp [hz]
  · simp only [hz, if_false]
    exact toDigitsCore_acc_ne_nil b _ _ _ (List.cons_ne_nil _ _)

theorem natRepr_ne_empty (n : Nat) : Nat.repr n ≠ "" := by
  intro h
  exact toDigits_ne_nil 10 n (congrArg String.data h)

theorem string_append_ne_empty_left (s t : String) (h : s ≠ "") : s ++ t ≠ "" := by
  intro he
  apply h
  have hd : s.data ++ t.data = [] := congrArg String.data he
  have : s.data = [] := (List.append_eq_nil.mp hd).1
  exact congrArg String.mk this

theorem serialize_ne_empty (j : Jn) : j.serialize ≠ "" := by
  cases j with
  | null => simp [Jn.serialize]
  | jbool b => cases b <;> simp [Jn.serialize]
  | jnum neg n =>
    cases neg with
    | false =>
      show ("" : String) ++ Nat.repr n ≠ ""
      simpa using natRepr_ne_empty n
    | true => exact string_append_ne_empty_left "-" _ (by decide)
  | jstr s => exact string_append_ne_empty_left "\"" _ (by decide)
  | jobj fs => exact string_append_ne_empty_left "\x7b" _ (by decide)
  | jarr es => exact string_append_ne_empty_left "[" _ (by decide)

theorem charsLt_asymm (as : List Char) :
    ∀ bs, charsLt as bs = true → charsLt bs as = true → False := by
  induction as with
  | nil =>
    intro bs hab hba
    cases bs with
    | nil => simp [charsLt] at hab
    | cons b bs => simp [charsLt] at hba
  | cons a as ih =>
    intro bs hab hba
    cases bs with
    | nil => simp [charsLt] at hab
    | cons b bs =>
      simp only [charsLt] at hab hba
      by_cases h1 : a.toNat < b.toNat
      · rw [if_neg (Nat.lt_asymm h1), if_pos h1] at hba
        exact absurd hba (by simp)
      · rw [if_neg h1] at hab
        by_cases h2 : b.toNat < a.toNat
        · rw [if_pos h2] at hab
          exact absurd hab (by simp)
        · rw [if_neg h2] at hab
          rw [if_neg h2, if_neg h1] at hba
          exact ih bs hab hba

theorem charsLt_trans (as : List Char) :
    ∀ bs cs, charsLt as bs = true → charsLt bs cs = true → charsLt as cs = true := by
  induction as with
  | nil =>
    intro bs cs hab hbc
    cases bs with
    | nil => simp [charsLt] at hab
    | cons b bs =>
      cases cs with
      | nil => simp [charsLt] at hbc
      | cons c cs => simp [charsLt]
  | cons a as ih =>
    intro bs cs hab hbc
    cases bs with
    | nil => simp [charsLt] at hab
    | cons b bs =>
      cases cs with
      | nil => simp [charsLt] at hbc
      | cons c cs =>
        simp only [charsLt] at hab hbc ⊢
        by_cases h1 : a.toNat < b.toNat
        · by_cases h2 : b.toNat < c.toNat
          · rw [if_pos (Nat.lt_trans h1 h2)]
          · rw [if_neg h2] at hbc
            by_cases h3 : c.toNat < b.toNat
            · rw [if_pos h3] at hbc
              exact absurd hbc (by simp)
            · have hbceq : b.toNat = c.toNat :=
                Nat.le_antisymm (Nat.le_of_not_lt h3) (Nat.le_of_not_lt h2)
              rw [if_pos (hbceq ▸ h1)]
        · rw [if_neg h1] at hab
          by_cases h4 : b.toNat < a.toNat
          · rw [if_pos h4] at hab
            exact absurd hab (by simp)
          · rw [if_neg h4] at hab
            have habeq : a.toNat = b.toNat :=
              Nat.le_antisymm (Nat.le_of_not_lt h4) (Nat.le_of_not_lt h1)
            by_cases h2 : b.toNat < c.toNat
            · rw [if_pos (habeq ▸ h2)]
            · rw [if_neg h2] at hbc
              by_cases h3 : c.toNat < b.toNat
              · rw [if_pos h3] at hbc
                exact absurd hbc (by simp)
              · rw [if_neg h3] at hbc
                have hbceq : b.toNat = c.toNat :=
                  Nat.le_antisymm (Nat.le_of_not_lt h3) (Nat.le_of_not_lt h2)
                have haceq : a.toNat = c.toNat := habeq.trans hbceq
                rw [if_neg (by omega : ¬ a.toNat < c.toNat),
                    if_neg (by omega : ¬ c.toNat < a.toNat)]
                exact ih bs cs hab hbc

theorem charsLt_total_ne (as : List Char) :
    ∀ bs, charsLt as bs = false → as ≠ bs → charsLt bs as = true := by
  induction as with
  | nil =>
    intro bs hab hne
    cases bs with
    | nil => exact absurd rfl hne
    | cons b bs => simp [charsLt] at hab
  | cons a as ih =>
    intro bs hab hne
    cases bs with
    | nil => simp [charsLt]
    | cons b bs =>
      simp only [charsLt] at hab ⊢
      by_cases h1 : a.toNat < b.toNat
      · rw [if_pos h1] at hab
        exact absurd hab (by simp)
      · rw [if_neg h1] at hab
        by_cases h2 : b.toNat < a.toNat
        · rw [if_pos h2]
        · rw [if_neg h2] at hab
          rw [if_neg h2, if_neg h1]
          have hone : a = b := by
            have hval : a.toNat = b.toNat :=
              Nat.le_antisymm (Nat.le_of_not_lt h2) (Nat.le_of_not_lt h1)
            exact Char.eq_of_val_eq (UInt32.ext hval)
          refine ih bs hab ?_
          intro hq
          exact hne (by rw [hone, hq])

theorem strLt_asymm (a b : String) (h1 : strLt a b = true) (h2 : strLt b a = true) : False :=
  charsLt_asymm a.data b.data h1 h2

theorem strLt_trans (a b c : String) (h1 : strLt a b = true) (h2 : strLt b c = true) :
    strLt a c = true :=
  charsLt_trans a.data b.data c.data h1 h2

theorem strLt_total_ne (a b : String) (h1 : strLt a b = false) (h2 : a ≠ b) :
    strLt b a = true := by
  refine charsLt_total_ne a.data b.data h1 ?_
  intro hd
  apply h2
  cases a with
  | mk da =>
    cases b with
    | mk db => exact congrArg String.mk hd

theorem mem_mapInsert (k v : String) (m : List (String × String)) (b : String × String)
    (hb : b ∈ mapInsert k v m) : b = (k, v) ∨ b ∈ m := by
  induction m with
  | nil => simpa [mapInsert] using hb
  | cons a t ih =>
    obtain ⟨k1, v1⟩ := a
    unfold mapInsert at hb
    by_cases h1 : strLt k k1 = true
    · rw [if_pos h1] at hb
      rcases List.mem_cons.mp hb with h | h
      · exact Or.inl h
      · exact Or.inr h
    · rw [if_neg h1] at hb
      by_cases h2 : (k == k1) = true
      · rw [if_pos h2] at hb
        exact Or.inr hb
      · rw [if_neg h2] at hb
        rcases List.mem_cons.mp hb with h | h
        · exact Or.inr (h ▸ List.mem_cons_self (k1, v1) t)
        · rcases ih h with h3 | h3
          · exact Or.inl h3
          · exact Or.inr (List.mem_cons_of_mem _ h3)

theorem mapInsert_perm (k v : String) (m : List (String × String))
    (h : k ∉ m.map Prod.fst) : mapInsert k v m ~ (k, v) :: m := by
  induction m with
  | nil => simp [mapInsert]
  | cons a t ih =>
    obtain ⟨k1, v1⟩ := a
    simp only [List.map_cons, List.mem_cons] at h
    push_neg at h
    unfold mapInsert
    by_cases h1 : strLt k k1 = true
    · rw [if_pos h1]
    · rw [if_neg h1, if_neg (by simp [h.1] : ¬ ((k == k1) = true))]
      calc (k1, v1) :: mapInsert k v t
          ~ (k1, v1) :: (k, v) :: t := (ih h.2).cons _
        _ ~ (k, v) :: (k1, v1) :: t := List.Perm.swap _ _ _

theorem mapInsert_sorted (k v : String) (m : List (String × String))
    (h : m.Pairwise keyLt) : (mapInsert k v m).Pairwise keyLt := by
  induction m with
  | nil => simp [mapInsert, keyLt]
  | cons a t ih =>
    obtain ⟨k1, v1⟩ := a
    rw [List.pairwise_cons] at h
    unfold mapInsert
    by_cases h1 : strLt k k1 = true
    · rw [if_pos h1]
      refine List.Pairwise.cons ?_ (List.Pairwise.cons h.1 h.2)
      intro b hb
      rcases List.mem_cons.mp hb with rfl | hbt
      · exact h1
      · exact strLt_trans _ _ _ h1 (h.1 b hbt)
    · rw [if_neg h1]
      by_cases h2 : (k == k1) = true
      · rw [if_pos h2]
        exact List.Pairwise.cons h.1 h.2
      · rw [if_neg h2]
        have hkne : k ≠ k1 := by simpa using h2
        have hfalse : strLt k k1 = false := by simpa using h1
        have hk1 : strLt k1 k = true := strLt_total_ne k k1 hfalse hkne
        refine List.Pairwise.cons ?_ (ih h.2)
        intro b hb
        rcases mem_mapInsert k v t b hb with rfl | hbt
        · exact hk1
        · exact h.1 b hbt

theorem foldl_mapInsert_sorted (l : List (String × String)) :
    ∀ acc : List (String × String), acc.Pairwise keyLt →
      (l.foldl (fun m kv => mapInsert kv.1 kv.2 m) acc).Pairwise keyLt := by
  induction l with
  | nil => intro acc h; simpa using h
  | cons x t ih =>
    intro acc h
    exact ih _ (mapInsert_sorted x.1 x.2 acc h)

theorem stdMapOfList_sorted (l : List (String × String)) :
    (stdMapOfList l).Pairwise keyLt :=
  foldl_mapInsert_sorted l [] List.Pairwise.nil

theorem foldl_mapInsert_perm (l : List (String × String)) :
    ∀ acc : List (String × String), ((acc ++ l).map Prod.fst).Nodup →
      l.foldl (fun m kv => mapInsert kv.1 kv.2 m) acc ~ acc ++ l := by
  induction l with
  | nil => intro acc _; simp
  | cons x t ih =>
    intro acc h
    have hsplit : ((acc ++ x :: t).map Prod.fst) = acc.map Prod.fst ++ x.1 :: t.map Prod.fst := by
      simp
    rw [hsplit] at h
    have hx : x.1 ∉ acc.map Prod.fst := by
      rcases List.nodup_append.mp h with ⟨_, _, hdisj⟩
      intro hc
      exact hdisj hc (List.mem_cons_self _ _)
    have hperm1 : mapInsert x.1 x.2 acc ~ x :: acc := by
      have := mapInsert_perm x.1 x.2 acc hx
      simpa using this
    have hkeys : ((mapInsert x.1 x.2 acc ++ t).map Prod.fst).Nodup := by
      have hp : (mapInsert x.1 x.2 acc ++ t).map Prod.fst ~ (acc.map Prod.fst ++ x.1 :: t.map Prod.fst) := by
        calc (mapInsert x.1 x.2 acc ++ t).map Prod.fst
            = (mapInsert x.1 x.2 acc).map Prod.fst ++ t.map Prod.fst := by simp
          _ ~ (x :: acc).map Prod.fst ++ t.map Prod.fst :=
              List.Perm.append_right _ (hperm1.map Prod.fst)
          _ = x.1 :: (acc.map Prod.fst ++ t.map Prod.fst) := by simp
          _ ~ acc.map Prod.fst ++ x.1 :: t.map Prod.fst := List.perm_middle.symm
      exact hp.symm.nodup h
    simp only [List.foldl_cons]
    calc t.foldl (fun m kv => mapInsert kv.1 kv.2 m) (mapInsert x.1 x.2 acc)
        ~ mapInsert x.1 x.2 acc ++ t := ih _ hkeys
      _ ~ (x :: acc) ++ t := List.Perm.append_right _ hperm1
      _ = x :: (acc ++ t) := by simp
      _ ~ acc ++ x :: t := List.perm_middle.symm

theorem stdMapOfList_perm (l : List (String × String))
    (h : (l.map Prod.fst).Nodup) : stdMapOfList l ~ l := by
  have := foldl_mapInsert_perm l [] (by simpa using h)
  simpa [stdMapOfList] using this

theorem sortedKey_perm_eq (m1 m2 : List (String × String))
    (h1 : m1.Pairwise keyLt) (h2 : m2.Pairwise keyLt) (hp : m1 ~ m2) : m1 = m2 := by
  haveI : IsAntisymm (String × String) keyLt :=
    ⟨fun a b hab hba => (strLt_asymm _ _ hab hba).elim⟩
  exact List.eq_of_perm_of_sorted hp h1 h2

theorem stdMapOfList_perm_eq (l1 l2 : List (String × String))
    (hp : l1 ~ l2) (h1 : (l1.map Prod.fst).Nodup) : stdMapOfList l1 = stdMapOfList l2 := by
  have h2 : (l2.map Prod.fst).Nodup := ((hp.map Prod.fst).nodup_iff).mp h1
  exact sortedKey_perm_eq _ _ (stdMapOfList_sorted l1) (stdMapOfList_sorted l2)
    (((stdMapOfList_perm l1 h1).trans hp).trans (stdMapOfList_perm l2 h2).symm)

theorem registryFind_disconnectEntry (reg : Registry) (mt : MonitorToken) :
    registryFind (disconnectEntry reg mt) mt.id = none := by
  unfold registryFind disconnectEntry
  rw [List.find?_eq_none]
  intro x hx
  have hmem := (List.mem_filter.mp hx).2
  simp only [Bool.not_eq_true'] at hmem
  simp [hmem]

/-! ## Claim theorems -/

/-- C1: the claim states that the query of a request dispatched through
sendRestRequest contains the recvWindow, timestamp and signature parameters
if and only if the call is dispatched with signed=true.  The code
contradicts this: line 419 of Futures.hpp passes the literal true to
createQueryString, ignoring the sign parameter, so a call dispatched with
sign=false still carries all three signed parameters and its query is
byte-identical to the query of the same call dispatched with sign=true. -/
theorem c1_sign_argument_ignored :
    (sendRestRequest (fun _ _ => "SIG") "sek" initialReceiveWindowMap 1000 RestCall.AccountInfo
        HttpMethod.GET false MarketType.Futures [("symbol", "BTCUSDT")]).queryKeys
      = ["symbol", "recvWindow", "timestamp", "signature"]
    ∧ (sendRestRequest (fun _ _ => "SIG") "sek" initialReceiveWindowMap 1000 RestCall.AccountInfo
        HttpMethod.GET false MarketType.Futures [("symbol", "BTCUSDT")]).query
      = (sendRestRequest (fun _ _ => "SIG") "sek" initialReceiveWindowMap 1000 RestCall.AccountInfo
          HttpMethod.GET true MarketType.Futures [("symbol", "BTCUSDT")]).query :=
  ⟨rfl, rfl⟩

/-- C2 counterexample: createQueryString invoked with signed=true and unset
credentials (empty secret key) does not fail; it returns the query string
whose signature is the MAC keyed by the empty secret — here the MAC is made
visible as the stand-in function printing its key and message, and the key
slot before the comma is empty. -/
theorem c2_counterexample :
    createQueryString (fun sec msg => "HMAC(" ++ sec ++ "," ++ msg ++ ")") ""
        initialReceiveWindowMap 1000 [("a", "1")] RestCall.AccountInfo true
      = "a=1&recvWindow=5000&timestamp=1000&signature=HMAC(,a=1&recvWindow=5000&timestamp=1000)" :=
  rfl

/-- C2 (amended): createQueryString performs no credential check.  Invoked
with signed=true while the credentials are unset (empty secret key), it
returns normally: the canonical string extended with a signature computed
by the MAC keyed with the empty secret.  No CredentialError exists in the
code path. -/
theorem c2_no_credential_check (sig : String → String → String) (rw : RestCall → String)
    (ts : Nat) (m : List (String × String)) (call : RestCall) :
    createQueryString sig "" rw ts m call true
      = canonicalQuery rw ts m call ++ "&signature=" ++ sig "" (canonicalQuery rw ts m call) :=
  createQueryString_true_eq sig "" rw ts m call

/-- C3 counterexample: the claim predicts the pairs in caller-supplied
order with no trailing separator, so for the input sequence
(b,2),(a,1) unsigned it predicts the string b=2&a=1.  The code stores the
pairs in a std::map, iterates them in key-sorted order, and writes one &
after every pair, producing a=1&b=2& instead. -/
theorem c3_counterexample :
    createQueryString (fun _ _ => "SIG") "sek" initialReceiveWindowMap 1000
        (stdMapOfList [("b", "2"), ("a", "1")]) RestCall.AccountInfo false
      = "a=1&b=2&"
    ∧ ("a=1&b=2&" : String) ≠ "b=2&a=1" :=
  ⟨rfl, by decide⟩

/-- C3 (amended): for every sequence of pairs with distinct keys, the map
handed to createQueryString holds them in key-sorted order (a permutation
of the input); unsigned, the result is the concatenation of key=value&
for each stored pair (one & terminator after every pair, none at the
front); signed, the result is the canonical string — that concatenation
extended with recvWindow and timestamp — followed by the signature
computed over the canonical string. -/
theorem c3_query_layout (sig : String → String → String) (secretKey : String)
    (rw : RestCall → String) (ts : Nat) (l : List (String × String)) (call : RestCall)
    (h : (l.map Prod.fst).Nodup) :
    (stdMapOfList l).Pairwise keyLt
    ∧ stdMapOfList l ~ l
    ∧ createQueryString sig secretKey rw ts (stdMapOfList l) call false
        = joinAll ((stdMapOfList l).map (fun kv => kv.1 ++ "=" ++ kv.2 ++ "&"))
    ∧ createQueryString sig secretKey rw ts (stdMapOfList l) call true
        = canonicalQuery rw ts (stdMapOfList l) call ++ "&signature="
            ++ sig secretKey (canonicalQuery rw ts (stdMapOfList l) call) :=
  ⟨stdMapOfList_sorted l, stdMapOfList_perm l h,
   createQueryString_false_eq sig secretKey rw ts (stdMapOfList l) call,
   createQueryString_true_eq sig secretKey rw ts (stdMapOfList l) call⟩

/-- Witness for c3_query_layout at the sequence (b,2),(a,1). -/
theorem c3_query_layout_witness :
    (([("b", "2"), ("a", "1")] : List (String × String)).map Prod.fst).Nodup
    ∧ ((stdMapOfList [("b", "2"), ("a", "1")]).Pairwise keyLt
       ∧ stdMapOfList [("b", "2"), ("a", "1")] ~ [("b", "2"), ("a", "1")]
       ∧ createQueryString (fun _ _ => "SIG") "sek" initialReceiveWindowMap 1000
             (stdMapOfList [("b", "2"), ("a", "1")]) RestCall.AccountInfo false
           = joinAll ((stdMapOfList [("b", "2"), ("a", "1")]).map
               (fun kv => kv.1 ++ "=" ++ kv.2 ++ "&"))
       ∧ createQueryString (fun _ _ => "SIG") "sek" initialReceiveWindowMap 1000
             (stdMapOfList [("b", "2"), ("a", "1")]) RestCall.AccountInfo true
           = canonicalQuery initialReceiveWindowMap 1000
               (stdMapOfList [("b", "2"), ("a", "1")]) RestCall.AccountInfo ++ "&signature="
               ++ (fun _ _ => "SIG") "sek" (canonicalQuery initialReceiveWindowMap 1000
                     (stdMapOfList [("b", "2"), ("a", "1")]) RestCall.AccountInfo)) :=
  ⟨by decide,
   c3_query_layout (fun _ _ => "SIG") "sek" initialReceiveWindowMap 1000
     [("b", "2"), ("a", "1")] RestCall.AccountInfo (by decide)⟩

/-- C4: feeding the same set of pairs (distinct keys) to the signer in any
two orders, with callKind, secret and timestamp fixed, produces
byte-identical query strings, and the signature component is the reference
MAC computed over the canonical pre-signature string. -/
theorem c4_signature_determinism (sig : String → String → String) (secretKey : String)
    (rw : RestCall → String) (ts : Nat) (call : RestCall) (l1 l2 : List (String × String))
    (hp : l1 ~ l2) (h1 : (l1.map Prod.fst).Nodup) :
    createQueryString sig secretKey rw ts (stdMapOfList l1) call true
      = createQueryString sig secretKey rw ts (stdMapOfList l2) call true
    ∧ createQueryString sig secretKey rw ts (stdMapOfList l1) call true
        = canonicalQuery rw ts (stdMapOfList l1) call ++ "&signature="
            ++ sig secretKey (canonicalQuery rw ts (stdMapOfList l1) call) := by
  constructor
  · rw [stdMapOfList_perm_eq l1 l2 hp h1]
  · exact createQueryString_true_eq sig secretKey rw ts (stdMapOfList l1) call

/-- Witness for c4_signature_determinism on the two orderings of
(a,1),(b,2). -/
theorem c4_signature_determinism_witness :
    ([("b", "2"), ("a", "1")] : List (String × String)) ~ [("a", "1"), ("b", "2")]
    ∧ (([("b", "2"), ("a", "1")] : List (String × String)).map Prod.fst).Nodup
    ∧ (createQueryString (fun _ _ => "SIG") "sek" initialReceiveWindowMap 1000
          (stdMapOfList [("b", "2"), ("a", "1")]) RestCall.NewOrder true
        = createQueryString (fun _ _ => "SIG") "sek" initialReceiveWindowMap 1000
            (stdMapOfList [("a", "1"), ("b", "2")]) RestCall.NewOrder true
       ∧ createQueryString (fun _ _ => "SIG") "sek" initialReceiveWindowMap 1000
            (stdMapOfList [("b", "2"), ("a", "1")]) RestCall.NewOrder true
          = canonicalQuery initialReceiveWindowMap 1000
              (stdMapOfList [("b", "2"), ("a", "1")]) RestCall.NewOrder ++ "&signature="
              ++ (fun _ _ => "SIG") "sek" (canonicalQuery initialReceiveWindowMap 1000
                    (stdMapOfList [("b", "2"), ("a", "1")]) RestCall.NewOrder)) :=
  ⟨List.Perm.swap ("a", "1") ("b", "2") [], by decide,
   c4_signature_determinism (fun _ _ => "SIG") "sek" initialReceiveWindowMap 1000
     RestCall.NewOrder [("b", "2"), ("a", "1")] [("a", "1"), ("b", "2")]
     (List.Perm.swap ("a", "1") ("b", "2") []) (by decide)⟩

/-- C5: a REST call whose response carries a non-OK status does not raise:
the response continuation returns a result whose validity flag is false
and whose message field holds the serialised (non-empty) response body. -/
theorem c5_invalid_result_on_non_ok (handler : HttpResponse → RestResult)
    (resp : HttpResponse) (h : resp.statusCode ≠ statusOK) :
    (sendRestResponse handler resp).valid = false
    ∧ (sendRestResponse handler resp).msg = resp.body.serialize
    ∧ (sendRestResponse handler resp).msg ≠ "" := by
  unfold sendRestResponse
  rw [if_neg h]
  exact ⟨rfl, rfl, serialize_ne_empty _⟩

/-- Witness for c5_invalid_result_on_non_ok at a 400 response carrying a
typical exchange error body. -/
theorem c5_invalid_result_witness :
    (400 : Nat) ≠ statusOK
    ∧ ((sendRestResponse (fun _ => { valid := true, msg := "ok" })
          { statusCode := 400,
            body := Jn.jobj [("code", Jn.jnum true 1121), ("msg", Jn.jstr "Invalid symbol.")] }).valid
        = false
       ∧ (sendRestResponse (fun _ => { valid := true, msg := "ok" })
            { statusCode := 400,
              body := Jn.jobj [("code", Jn.jnum true 1121), ("msg", Jn.jstr "Invalid symbol.")] }).msg
          = (Jn.jobj [("code", Jn.jnum true 1121), ("msg", Jn.jstr "Invalid symbol.")]).serialize
       ∧ (sendRestResponse (fun _ => { valid := true, msg := "ok" })
            { statusCode := 400,
              body := Jn.jobj [("code", Jn.jnum true 1121), ("msg", Jn.jstr "Invalid symbol.")] }).msg
          ≠ "") :=
  ⟨by decide,
   c5_invalid_result_on_non_ok (fun _ => { valid := true, msg := "ok" })
     { statusCode := 400,
       body := Jn.jobj [("code", Jn.jnum true 1121), ("msg", Jn.jstr "Invalid symbol.")] }
     (by decide)⟩

/-- C6: when every listen-key renewal receives a non-OK status, a timer run
of any positive length performs exactly one renewal invocation and raises
exactly one KeepAliveError (the BfcppException of Futures.hpp line 287):
the failure is loud and no further renewal is scheduled. -/
theorem c6_keepalive_single_error (statuses : Nat → Nat) (fuel : Nat)
    (hfail : ∀ i, statuses i ≠ statusOK) (hfuel : 1 ≤ fuel) :
    runKeepAlive statuses fuel = (1, [keepAliveErrorMsg]) := by
  unfold runKeepAlive
  cases fuel with
  | zero => exact absurd hfuel (by decide)
  | succ n =>
    unfold runKeepAliveFrom
    have h0 : onUserDataTimerCheck (statuses 0) = Except.error keepAliveErrorMsg := by
      unfold onUserDataTimerCheck
      rw [if_neg (hfail 0)]
    rw [h0]

/-- Witness for c6_keepalive_single_error: renewal always receives 400,
five ticks of fuel. -/
theorem c6_keepalive_witness :
    runKeepAlive (fun _ => 400) 5 = (1, [keepAliveErrorMsg]) := by
  apply c6_keepalive_single_error
  · intro i
    show (400 : Nat) ≠ statusOK
    decide
  · decide

/-- C7: the listen-key renewal request is a PUT built from the listen-key
path with no query string appended at all, hence it carries no signature,
recvWindow or timestamp query parameter. -/
theorem c7_renewal_request_unsigned (mt : MarketType) :
    (onUserDataTimerRequest mt).method = HttpMethod.PUT
    ∧ (onUserDataTimerRequest mt).pathCall = RestCall.ListenKey
    ∧ (onUserDataTimerRequest mt).query = none
    ∧ (onUserDataTimerRequest mt).queryKeys = [] :=
  ⟨rfl, rfl, rfl, rfl⟩

/-- C8: cancelMonitor invoked with a token absent from the registry
returns normally and leaves the registry unchanged, and a repeated
cancelMonitor on the same token has no further effect. -/
theorem c8_cancelMonitor_unknown_noop (reg : Registry) (mt : MonitorToken) :
    (registryFind reg mt.id = none → cancelMonitor reg mt = reg)
    ∧ cancelMonitor (cancelMonitor reg mt) mt = cancelMonitor reg mt := by
  constructor
  · intro h
    simp [cancelMonitor, h]
  · cases hf : registryFind reg mt.id with
    | none =>
      have h1 : cancelMonitor reg mt = reg := by simp [cancelMonitor, hf]
      rw [h1]
      exact h1
    | some e =>
      have h1 : cancelMonitor reg mt = disconnectEntry reg mt := by simp [cancelMonitor, hf]
      rw [h1]
      simp [cancelMonitor, registryFind_disconnectEntry]

/-- Witness for c8_cancelMonitor_unknown_noop: registry holding token 1,
cancel of the unknown token 2. -/
theorem c8_cancelMonitor_witness :
    cancelMonitor [(1, 7)] (MonitorToken.mk 2) = [(1, 7)]
    ∧ cancelMonitor (cancelMonitor [(1, 7)] (MonitorToken.mk 2)) (MonitorToken.mk 2)
        = cancelMonitor [(1, 7)] (MonitorToken.mk 2) :=
  ⟨(c8_cancelMonitor_unknown_noop [(1, 7)] (MonitorToken.mk 2)).1 rfl,
   (c8_cancelMonitor_unknown_noop [(1, 7)] (MonitorToken.mk 2)).2⟩

/-- C9: the receive-window table is process-global (an inline static
member, so the embedding carries it outside any instance): after
setReceiveWindow(call, d), a signed query built by any market instance —
including the test-net subclass — for that call uses d as its recvWindow
value, while every other call kind keeps its prior window. -/
theorem c9_receive_window_global (rw : RestCall → String) (inst : MarketInstance)
    (call c2 : RestCall) (d ts : Nat) (sig : String → String → String)
    (m : List (String × String)) (hne : c2 ≠ call) :
    setReceiveWindow rw call d call = Nat.repr d
    ∧ setReceiveWindow rw call d c2 = rw c2
    ∧ createQueryString sig inst.apiAccess.secretKey (setReceiveWindow rw call d) ts m call true
        = canonicalQuery (setReceiveWindow rw call d) ts m call ++ "&signature="
            ++ sig inst.apiAccess.secretKey (canonicalQuery (setReceiveWindow rw call d) ts m call)
    ∧ canonicalQuery (setReceiveWindow rw call d) ts m call
        = joinAll (m.map (fun kv => kv.1 ++ "=" ++ kv.2 ++ "&"))
            ++ "recvWindow=" ++ Nat.repr d ++ "&timestamp=" ++ Nat.repr ts := by
  refine ⟨?_, ?_, createQueryString_true_eq sig inst.apiAccess.secretKey
    (setReceiveWindow rw call d) ts m call, ?_⟩
  · simp [setReceiveWindow]
  · simp [setReceiveWindow, hne]
  · unfold canonicalQuery setReceiveWindow
    simp

/-- Witness for c9_receive_window_global: the window of NewOrder is set to
9000 and a query is then built by a test-net instance; CancelOrder keeps
its prior window. -/
theorem c9_receive_window_witness :
    setReceiveWindow initialReceiveWindowMap RestCall.NewOrder 9000 RestCall.NewOrder
      = Nat.repr 9000
    ∧ setReceiveWindow initialReceiveWindowMap RestCall.NewOrder 9000 RestCall.CancelOrder
        = initialReceiveWindowMap RestCall.CancelOrder
    ∧ createQueryString (fun _ _ => "SIG")
          (MarketInstance.mk MarketType.FuturesTest (ApiAccess.mk "key" "sek")).apiAccess.secretKey
          (setReceiveWindow initialReceiveWindowMap RestCall.NewOrder 9000) 1000
          [("symbol", "BTCUSDT")] RestCall.NewOrder true
        = canonicalQuery (setReceiveWindow initialReceiveWindowMap RestCall.NewOrder 9000) 1000
            [("symbol", "BTCUSDT")] RestCall.NewOrder ++ "&signature="
            ++ (fun _ _ => "SIG")
                (MarketInstance.mk MarketType.FuturesTest (ApiAccess.mk "key" "sek")).apiAccess.secretKey
                (canonicalQuery (setReceiveWindow initialReceiveWindowMap RestCall.NewOrder 9000) 1000
                  [("symbol", "BTCUSDT")] RestCall.NewOrder)
    ∧ canonicalQuery (setReceiveWindow initialReceiveWindowMap RestCall.NewOrder 9000) 1000
          [("symbol", "BTCUSDT")] RestCall.NewOrder
        = joinAll ([("symbol", "BTCUSDT")].map (fun kv => kv.1 ++ "=" ++ kv.2 ++ "&"))
            ++ "recvWindow=" ++ Nat.repr 9000 ++ "&timestamp=" ++ Nat.repr 1000 :=
  c9_receive_window_global initialReceiveWindowMap
    (MarketInstance.mk MarketType.FuturesTest (ApiAccess.mk "key" "sek"))
    RestCall.NewOrder RestCall.CancelOrder 9000 1000 (fun _ _ => "SIG")
    [("symbol", "BTCUSDT")] (by decide)

/-- C10: ping builds a POST whose path is that of the NewOrder call — not a
dedicated ping path — with the unsigned Ping query string (which is empty)
appended, and returns the elapsed milliseconds between dispatching the
request and receiving the response. -/
theorem c10_ping_request_and_latency (sig : String → String → String) (secretKey : String)
    (rw : RestCall → String) (ts : Nat) (mt : MarketType) (send rcv : Nat)
    (h : send ≤ rcv) :
    (pingRequest sig secretKey rw ts mt).method = HttpMethod.POST
    ∧ (pingRequest sig secretKey rw ts mt).pathCall = RestCall.NewOrder
    ∧ RestCall.NewOrder ≠ RestCall.Ping
    ∧ (pingRequest sig secretKey rw ts mt).query
        = some (createQueryString sig secretKey rw ts [] RestCall.Ping false)
    ∧ createQueryString sig secretKey rw ts [] RestCall.Ping false = ""
    ∧ pingLatency send rcv + send = rcv := by
  refine ⟨rfl, rfl, by decide, rfl, rfl, ?_⟩
  exact Nat.sub_add_cancel h

/-- Witness for c10_ping_request_and_latency with a dispatch at 100ms and
a response at 450ms. -/
theorem c10_ping_witness :
    (100 : Nat) ≤ 450
    ∧ ((pingRequest (fun _ _ => "SIG") "sek" initialReceiveWindowMap 1000 MarketType.Futures).method
        = HttpMethod.POST
       ∧ (pingRequest (fun _ _ => "SIG") "sek" initialReceiveWindowMap 1000 MarketType.Futures).pathCall
          = RestCall.NewOrder
       ∧ RestCall.NewOrder ≠ RestCall.Ping
       ∧ (pingRequest (fun _ _ => "SIG") "sek" initialReceiveWindowMap 1000 MarketType.Futures).query
          = some (createQueryString (fun _ _ => "SIG") "sek" initialReceiveWindowMap 1000 []
              RestCall.Ping false)
       ∧ createQueryString (fun _ _ => "SIG") "sek" initialReceiveWindowMap 1000 []
            RestCall.Ping false = ""
       ∧ pingLatency 100 450 + 100 = 450) :=
  ⟨by decide,
   c10_ping_request_and_latency (fun _ _ => "SIG") "sek" initialReceiveWindowMap 1000
     MarketType.Futures 100 450 (by decide)⟩

end Bfcpp
